import Mathlib

/-!
Verification of the windowed sequence forecaster and data-updater of the
TB-incidence analysis repository.

The embedding works over `ℚ` (exact arithmetic) and `List`:

* `fitScaler` / `FittedScaler.transform` / `FittedScaler.inverseTransform`
  embed sklearn `MinMaxScaler` with the default feature range `[0, 1]`,
  including `_handle_zeros_in_scale`, which replaces a zero data range by 1
  (so a constant series is mapped to all zeros, not an error).
* `make_windows` embeds the windowing loop
  `for i in range(len(scaled_data) - look_back): X.append(...); y.append(...)`
  of `analyze_tb_incidence.py` (lines 159-166).
* `future_predictions` embeds the recursive forecast loop (lines 196-203):
  each step predicts from the current context, appends the prediction to the
  output and slides the context (`np.roll(ctx, -1); ctx[-1] = pred`, i.e.
  drop the oldest element, append the prediction).
* `future_predictions_inv`, `future_dates_years` embed the assembly of the
  final forecast (lines 205, 216).
* `test_loss` embeds the evaluation metric
  `np.mean((test_predictions_inv - y_test_inv) ** 2)` (line 230).
* `integrate_new_data` embeds `TBDataUpdater.integrate_new_data` of
  `data_updater.py` (lines 124-147): concatenate the existing rows with the
  newly fetched ones, sort by period and drop duplicate periods keeping the
  first occurrence (`drop_duplicates(subset='ds')`, default `keep='first'`).
  `sort_values('ds')` uses pandas' default `kind='quicksort'`: the rows are
  permuted by the indexer numpy's argsort returns, embedded below loop for
  loop from numpy's `npysort/quicksort.c.src` (`aquicksort`: median-of-3
  introsort over the index array, insertion sort for runs of at most 16
  elements, heapsort fallback once `2 * floor(log2 n)` partitions deep).
  This sort is not stable: rows with equal periods may be reordered, so
  which of two rows sharing a period survives `drop_duplicates` depends on
  the quicksort's tie-breaking.
-/

/-- sklearn `_handle_zeros_in_scale`: a zero data range is replaced by 1 so
that the subsequent division is defined. -/
def handleZerosInScale (s : ℚ) : ℚ :=
  if s = 0 then 1 else s

/-- The state captured by `MinMaxScaler.fit`: the data minimum and maximum of
the series the scaler was fitted on. -/
structure FittedScaler where
  dataMin : ℚ
  dataMax : ℚ
deriving Repr, DecidableEq

/-- `scale_` of a fitted `MinMaxScaler` with feature range `[0, 1]`:
`(1 - 0) / handle_zeros_in_scale(data_max - data_min)`. -/
def FittedScaler.scaleFactor (sc : FittedScaler) : ℚ :=
  1 / handleZerosInScale (sc.dataMax - sc.dataMin)

/-- `min_` of a fitted `MinMaxScaler` with feature range `[0, 1]`:
`0 - data_min * scale_`. -/
def FittedScaler.minAdjust (sc : FittedScaler) : ℚ :=
  0 - sc.dataMin * sc.scaleFactor

/-- `MinMaxScaler.transform` on one value: `v * scale_ + min_`. -/
def FittedScaler.transform (sc : FittedScaler) (v : ℚ) : ℚ :=
  v * sc.scaleFactor + sc.minAdjust

/-- `MinMaxScaler.inverse_transform` on one value: `(w - min_) / scale_`. -/
def FittedScaler.inverseTransform (sc : FittedScaler) (w : ℚ) : ℚ :=
  (w - sc.minAdjust) / sc.scaleFactor

/-- `MinMaxScaler.fit` on a series: record its minimum and maximum.
`none` models the `ValueError` sklearn raises on an empty input array. -/
def fitScaler : List ℚ → Option FittedScaler
  | [] => none
  | y :: ys => some ⟨ys.foldl min y, ys.foldl max y⟩

/-- `scaler.fit_transform(df['y'])` (analyze_tb_incidence.py line 156):
fit the scaler on the series, then map its transform over the series. -/
def fit_transform (ys : List ℚ) : Option (List ℚ) :=
  (fitScaler ys).map fun sc => ys.map sc.transform

/-- The windowing loop (lines 159-166): for `i` in
`range(len(scaled_data) - look_back)` append `scaled_data[i : i+look_back]`
to `X` and `scaled_data[i+look_back]` to `y`.  Returns the pair `(X, y)`.
`Nat` subtraction makes the range empty when the series is no longer than
the window, exactly as Python `range` of a non-positive bound is. -/
def make_windows (s : List ℚ) (w : Nat) : List (List ℚ) × List ℚ :=
  ((List.range (s.length - w)).map fun i => (s.drop i).take w,
   (List.range (s.length - w)).map fun i => s.getD (i + w) 0)

/-- The recursive forecast loop (lines 196-203).  `predict` stands for the
trained model (`lstm_model.predict` on a single context).  Each iteration
computes `pred := predict ctx`, appends `pred` to the output and updates the
context to `np.roll(ctx, -1)` with its last entry overwritten by `pred`,
i.e. `ctx.drop 1 ++ [pred]`.  The first argument of the recursion is the
number of remaining steps, the second the current context. -/
def future_predictions (predict : List ℚ → ℚ) : Nat → List ℚ → List ℚ
  | 0, _ => []
  | k + 1, ctx => predict ctx :: future_predictions predict k (ctx.drop 1 ++ [predict ctx])

/-- The successive contexts the loop of `future_predictions` feeds to
`predict`: the context of step 1 is the initial context, and each later
context is the previous one with the oldest element dropped and that step's
prediction appended. -/
def forecastContexts (predict : List ℚ → ℚ) : Nat → List ℚ → List (List ℚ)
  | 0, _ => []
  | k + 1, ctx => ctx :: forecastContexts predict k (ctx.drop 1 ++ [predict ctx])

/-- Reconstruction of the context history from the initial context and the
output sequence alone: drop the oldest element and append the next output,
`i` times. -/
def reconstructContext (init : List ℚ) (outs : List ℚ) : Nat → List ℚ
  | 0 => init
  | i + 1 => (reconstructContext init outs i).drop 1 ++ [outs.getD i 0]

/-- Assembly step `future_predictions_inv = scaler.inverse_transform(...)`
(line 205): every normalized forecast value goes through the inverse
transform of the one scaler fitted at line 156. -/
def future_predictions_inv (sc : FittedScaler) (preds : List ℚ) : List ℚ :=
  preds.map sc.inverseTransform

/-- The forecast periods (line 216), at year granularity:
`pd.date_range(start=last + 1 year, periods=k, freq='Y')` yields `k`
consecutive periods starting strictly after the last observed one. -/
def future_dates_years (lastYear : ℤ) (k : Nat) : List ℤ :=
  (List.range k).map fun i : Nat => lastYear + 1 + (i : ℤ)

/-- `np.mean` of a list of rationals. -/
def meanList (xs : List ℚ) : ℚ :=
  xs.sum / (xs.length : ℚ)

/-- The LSTM test metric (line 230):
`np.mean((test_predictions_inv - y_test_inv) ** 2)`, where both arrays are
the inverse-transformed predictions and labels (lines 192-193). -/
def test_loss (sc : FittedScaler) (preds labels : List ℚ) : ℚ :=
  meanList (((preds.map sc.inverseTransform).zip (labels.map sc.inverseTransform)).map
    fun q => (q.1 - q.2) ^ 2)

lemma future_predictions_length (predict : List ℚ → ℚ) :
    ∀ (K : Nat) (ctx : List ℚ), (future_predictions predict K ctx).length = K := by
  intro K
  induction K with
  | zero => intro ctx; rfl
  | succ K ih => intro ctx; simp [future_predictions, ih]

lemma forecastContexts_getD_zero (predict : List ℚ → ℚ) (K : Nat) (ctx : List ℚ)
    (hK : 1 ≤ K) : (forecastContexts predict K ctx).getD 0 [] = ctx := by
  obtain ⟨K', rfl⟩ : ∃ K', K = K' + 1 := ⟨K - 1, by omega⟩
  rfl

lemma future_predictions_getD (predict : List ℚ → ℚ) :
    ∀ (K : Nat) (ctx : List ℚ) (i : Nat), i < K →
      (future_predictions predict K ctx).getD i 0
        = predict ((forecastContexts predict K ctx).getD i []) := by
  intro K
  induction K with
  | zero => intro ctx i hi; exact absurd hi (Nat.not_lt_zero i)
  | succ K ih =>
    intro ctx i hi
    match i with
    | 0 => rfl
    | i + 1 =>
      have h := ih (ctx.drop 1 ++ [predict ctx]) i (Nat.lt_of_succ_lt_succ hi)
      simpa [future_predictions, forecastContexts] using h

lemma forecastContexts_getD_succ (predict : List ℚ → ℚ) :
    ∀ (K : Nat) (ctx : List ℚ) (i : Nat), i + 1 < K →
      (forecastContexts predict K ctx).getD (i + 1) []
        = ((forecastContexts predict K ctx).getD i []).drop 1
          ++ [predict ((forecastContexts predict K ctx).getD i [])] := by
  intro K
  induction K with
  | zero => intro ctx i hi; exact absurd hi (Nat.not_lt_zero _)
  | succ K ih =>
    intro ctx i hi
    match i with
    | 0 =>
      obtain ⟨K', rfl⟩ : ∃ K', K = K' + 1 := ⟨K - 1, by omega⟩
      rfl
    | i + 1 =>
      have h := ih (ctx.drop 1 ++ [predict ctx]) i (Nat.lt_of_succ_lt_succ hi)
      simpa [forecastContexts] using h

lemma reconstructContext_cons (init : List ℚ) (p : ℚ) (rest : List ℚ) :
    ∀ i : Nat, reconstructContext init (p :: rest) (i + 1)
      = reconstructContext (init.drop 1 ++ [p]) rest i := by
  intro i
  induction i with
  | zero => rfl
  | succ i ih =>
    show (reconstructContext init (p :: rest) (i + 1)).drop 1 ++ [(p :: rest).getD (i + 1) 0]
        = (reconstructContext (init.drop 1 ++ [p]) rest i).drop 1 ++ [rest.getD i 0]
    rw [ih, List.getD_cons_succ]

lemma forecastContexts_eq_reconstruct (predict : List ℚ → ℚ) :
    ∀ (K : Nat) (ctx : List ℚ) (i : Nat), i < K →
      (forecastContexts predict K ctx).getD i []
        = reconstructContext ctx (future_predictions predict K ctx) i := by
  intro K
  induction K with
  | zero => intro ctx i hi; exact absurd hi (Nat.not_lt_zero _)
  | succ K ih =>
    intro ctx i hi
    match i with
    | 0 => rfl
    | i + 1 =>
      have h1 := ih (ctx.drop 1 ++ [predict ctx]) i (Nat.lt_of_succ_lt_succ hi)
      calc (forecastContexts predict (K + 1) ctx).getD (i + 1) []
          = (forecastContexts predict K (ctx.drop 1 ++ [predict ctx])).getD i [] := by
            simp [forecastContexts]
        _ = reconstructContext (ctx.drop 1 ++ [predict ctx])
              (future_predictions predict K (ctx.drop 1 ++ [predict ctx])) i := h1
        _ = reconstructContext ctx (future_predictions predict (K + 1) ctx) (i + 1) := by
            rw [show future_predictions predict (K + 1) ctx
                  = predict ctx :: future_predictions predict K (ctx.drop 1 ++ [predict ctx])
                from rfl, reconstructContext_cons]

lemma future_predictions_const (c : ℚ) :
    ∀ (K : Nat) (ctx : List ℚ),
      future_predictions (fun _ => c) K ctx = List.replicate K c := by
  intro K
  induction K with
  | zero => intro ctx; rfl
  | succ K ih => intro ctx; simp [future_predictions, List.replicate_succ, ih]

/-! ## Claims about the recursive forecaster -/

/-- C1: the recursive forecast follows the exact sliding-window recursion:
the step-1 context is the initial context unchanged, every output is the
prediction computed from its step's context, each later context is the
previous one with the oldest element dropped and the previous prediction
appended, and consequently the whole context history is reconstructible
from the initial context and the output sequence alone. -/
theorem c1_sliding_window_recursion (predict : List ℚ → ℚ) (init : List ℚ) (K : Nat)
    (hK : 1 ≤ K) :
    (forecastContexts predict K init).getD 0 [] = init ∧
    (∀ i, i < K → (future_predictions predict K init).getD i 0
        = predict ((forecastContexts predict K init).getD i [])) ∧
    (∀ i, i + 1 < K → (forecastContexts predict K init).getD (i + 1) []
        = ((forecastContexts predict K init).getD i []).drop 1
          ++ [(future_predictions predict K init).getD i 0]) ∧
    (∀ i, i < K → (forecastContexts predict K init).getD i []
        = reconstructContext init (future_predictions predict K init) i) := by
  refine ⟨forecastContexts_getD_zero predict K init hK,
    fun i hi => future_predictions_getD predict K init i hi,
    fun i hi => ?_,
    fun i hi => forecastContexts_eq_reconstruct predict K init i hi⟩
  rw [future_predictions_getD predict K init i (by omega)]
  exact forecastContexts_getD_succ predict K init i hi

/-- Witness for C1 at `predict = sum of the context`, initial context
`[1, 2, 3, 4]`, horizon 3. -/
theorem c1_sliding_window_recursion_witness :
    (forecastContexts (fun l => l.sum) 3 [1, 2, 3, 4]).getD 0 [] = [1, 2, 3, 4] ∧
    (future_predictions (fun l => l.sum) 3 [1, 2, 3, 4]).getD 1 0
      = (fun l : List ℚ => l.sum) ((forecastContexts (fun l => l.sum) 3 [1, 2, 3, 4]).getD 1 []) ∧
    (forecastContexts (fun l => l.sum) 3 [1, 2, 3, 4]).getD 2 []
      = reconstructContext [1, 2, 3, 4] (future_predictions (fun l => l.sum) 3 [1, 2, 3, 4]) 2 := by
  obtain ⟨h0, h1, h2, h3⟩ :=
    c1_sliding_window_recursion (fun l => l.sum) [1, 2, 3, 4] 3 (by omega)
  exact ⟨h0, h1 1 (by omega), h3 2 (by omega)⟩

/-- C2: for every predict function, initial context and horizon `K ≥ 1` the
recursive forecast returns exactly `K` values, with the step-1 prediction
(the one computed from the initial context) first. -/
theorem c2_forecast_length (predict : List ℚ → ℚ) (ctx : List ℚ) (K : Nat) (hK : 1 ≤ K) :
    (future_predictions predict K ctx).length = K ∧
    (future_predictions predict K ctx).head? = some (predict ctx) := by
  refine ⟨future_predictions_length predict K ctx, ?_⟩
  obtain ⟨K', rfl⟩ : ∃ K', K = K' + 1 := ⟨K - 1, by omega⟩
  rfl

/-- Witness for C2 at `predict = sum`, context `[1, 2, 3, 4]`, horizon 5. -/
theorem c2_forecast_length_witness :
    (future_predictions (fun l => l.sum) 5 [1, 2, 3, 4]).length = 5 ∧
    (future_predictions (fun l => l.sum) 5 [1, 2, 3, 4]).head? = some 10 := by
  have h := c2_forecast_length (fun l => l.sum) [1, 2, 3, 4] 5 (by omega)
  refine ⟨h.1, ?_⟩
  rw [h.2]
  norm_num

/-- C7: the forecaster applies no guard to predictions: for an arbitrary
predict function the value appended at each step is exactly the prediction
from that step's context, the next context is that context slid by one with
the raw prediction appended, and a predictor constantly returning any value
`c` — in particular one outside `[0, 1]` — produces exactly `K` copies of
`c`, each having been fed back unmodified. -/
theorem c7_no_prediction_guard (predict : List ℚ → ℚ) (ctx : List ℚ) (K i : Nat) (c : ℚ)
    (hi : i < K) :
    (future_predictions predict K ctx).getD i 0
      = predict ((forecastContexts predict K ctx).getD i []) ∧
    (i + 1 < K → (forecastContexts predict K ctx).getD (i + 1) []
        = ((forecastContexts predict K ctx).getD i []).drop 1
          ++ [predict ((forecastContexts predict K ctx).getD i [])]) ∧
    future_predictions (fun _ => c) K ctx = List.replicate K c := by
  exact ⟨future_predictions_getD predict K ctx i hi,
    fun hi1 => forecastContexts_getD_succ predict K ctx i hi1,
    future_predictions_const c K ctx⟩

/-- Witness for C7 at the out-of-range constant predictor `fun _ => 5`
(5 lies outside the normalized training range `[0, 1]`). -/
theorem c7_no_prediction_guard_witness :
    (future_predictions (fun _ => (5 : ℚ)) 3 [0, 1/2, 1/4, 3/4]).getD 1 0
      = (fun _ : List ℚ => (5 : ℚ))
          ((forecastContexts (fun _ => (5 : ℚ)) 3 [0, 1/2, 1/4, 3/4]).getD 1 []) ∧
    (forecastContexts (fun _ => (5 : ℚ)) 3 [0, 1/2, 1/4, 3/4]).getD 2 []
      = ((forecastContexts (fun _ => (5 : ℚ)) 3 [0, 1/2, 1/4, 3/4]).getD 1 []).drop 1
        ++ [(fun _ : List ℚ => (5 : ℚ))
              ((forecastContexts (fun _ => (5 : ℚ)) 3 [0, 1/2, 1/4, 3/4]).getD 1 [])] ∧
    future_predictions (fun _ => (5 : ℚ)) 3 [0, 1/2, 1/4, 3/4] = List.replicate 3 5 := by
  have h := c7_no_prediction_guard (fun _ => (5 : ℚ)) [0, 1/2, 1/4, 3/4] 3 1 5 (by omega)
  exact ⟨h.1, h.2.1 (by omega), h.2.2⟩

/-! ## Helper lemmas about windowing and normalization -/

lemma getD_map_range {α : Type} (f : Nat → α) (n i : Nat) (d : α) (hi : i < n) :
    ((List.range n).map f).getD i d = f i := by
  rw [List.getD_eq_getElem?_getD, List.getElem?_map, List.getElem?_range hi]
  rfl

lemma foldl_min_replicate (c : ℚ) : ∀ m : Nat, List.foldl min c (List.replicate m c) = c := by
  intro m
  induction m with
  | zero => rfl
  | succ m ih => simpa [List.replicate_succ, min_self] using ih

lemma foldl_max_replicate (c : ℚ) : ∀ m : Nat, List.foldl max c (List.replicate m c) = c := by
  intro m
  induction m with
  | zero => rfl
  | succ m ih => simpa [List.replicate_succ, max_self] using ih

/-! ## Claims about normalization and windowing -/

/-- C3: the windowing transform on a normalized series of length `N > W`
produces exactly `N - W` window/label pairs; the `i`-th context has length
`W` with `j`-th entry the series element `i + j`, the `i`-th label is the
series element `i + W`, and the pairs appear in input order (the index `i`
enumerates them earliest first). -/
theorem c3_window_transform (s : List ℚ) (w : Nat) (hw : w < s.length) :
    (make_windows s w).1.length = s.length - w ∧
    (make_windows s w).2.length = s.length - w ∧
    (∀ i, i < s.length - w →
      ((make_windows s w).1.getD i []).length = w ∧
      (∀ j, j < w → ((make_windows s w).1.getD i []).getD j 0 = s.getD (i + j) 0) ∧
      (make_windows s w).2.getD i 0 = s.getD (i + w) 0) := by
  refine ⟨by simp [make_windows], by simp [make_windows], fun i hi => ?_⟩
  have hctx : (make_windows s w).1.getD i [] = (s.drop i).take w :=
    getD_map_range (fun i => (s.drop i).take w) _ i [] hi
  have hlab : (make_windows s w).2.getD i 0 = s.getD (i + w) 0 :=
    getD_map_range (fun i => s.getD (i + w) 0) _ i 0 hi
  refine ⟨?_, fun j hj => ?_, hlab⟩
  · rw [hctx]
    simp only [List.length_take, List.length_drop]
    omega
  · rw [hctx, List.getD_eq_getElem?_getD, List.getElem?_take, if_pos hj,
      List.getElem?_drop, List.getD_eq_getElem?_getD]

/-- Witness for C3 on the series `[1, 2, 3, 4, 5, 6]` with `W = 4`. -/
theorem c3_window_transform_witness :
    (make_windows [1, 2, 3, 4, 5, 6] 4).1.length = ([1, 2, 3, 4, 5, 6] : List ℚ).length - 4 ∧
    ((make_windows [1, 2, 3, 4, 5, 6] 4).1.getD 1 []).getD 2 0
      = ([1, 2, 3, 4, 5, 6] : List ℚ).getD (1 + 2) 0 ∧
    (make_windows [1, 2, 3, 4, 5, 6] 4).2.getD 1 0
      = ([1, 2, 3, 4, 5, 6] : List ℚ).getD (1 + 4) 0 := by
  have h := c3_window_transform [1, 2, 3, 4, 5, 6] 4 (by decide)
  have h1 := h.2.2 1 (by decide)
  exact ⟨h.1, h1.2.1 2 (by decide), h1.2.2⟩

/-- C4: round trip of the min-max normalization: when the fitted minimum and
maximum differ, the inverse transform undoes the forward transform exactly
(in exact arithmetic) on every value of the series. -/
theorem c4_round_trip (ys : List ℚ) (sc : FittedScaler) (v : ℚ)
    (_hfit : fitScaler ys = some sc) (hne : sc.dataMin ≠ sc.dataMax) (_hv : v ∈ ys) :
    sc.inverseTransform (sc.transform v) = v := by
  have hd : sc.dataMax - sc.dataMin ≠ 0 := sub_ne_zero.mpr (Ne.symm hne)
  simp only [FittedScaler.inverseTransform, FittedScaler.transform, FittedScaler.scaleFactor,
    FittedScaler.minAdjust, handleZerosInScale, if_neg hd]
  field_simp

/-- Witness for C4 on the series `[2, 4]` and the value `4`. -/
theorem c4_round_trip_witness :
    FittedScaler.inverseTransform ⟨2, 4⟩ (FittedScaler.transform ⟨2, 4⟩ 4) = 4 :=
  c4_round_trip [2, 4] ⟨2, 4⟩ 4 (by decide) (by decide) (by decide)

/-- C5 counterexample: normalizing the constant series `[5, 5, 5]` does not
fail — sklearn's `MinMaxScaler` replaces the zero range by 1 and returns the
all-zero normalized series. -/
theorem c5_counterexample : fit_transform [5, 5, 5] = some [0, 0, 0] := by
  norm_num [fit_transform, fitScaler, FittedScaler.transform, FittedScaler.scaleFactor,
    FittedScaler.minAdjust, handleZerosInScale]

/-- C5 (amended): for every nonempty constant series, normalization returns
normally with all-zero output (the zero data range is replaced by 1); no
error is raised and no NaN is produced. -/
theorem c5_constant_series_all_zero (c : ℚ) (n : Nat) (hn : 1 ≤ n) :
    fit_transform (List.replicate n c) = some (List.replicate n 0) := by
  obtain ⟨m, rfl⟩ : ∃ m, n = m + 1 := ⟨n - 1, by omega⟩
  have ht : FittedScaler.transform ⟨c, c⟩ c = 0 := by
    simp [FittedScaler.transform, FittedScaler.scaleFactor, FittedScaler.minAdjust,
      handleZerosInScale]
  simp [fit_transform, fitScaler, List.replicate_succ, foldl_min_replicate,
    foldl_max_replicate, List.map_replicate, ht]

/-- Witness for the amended C5 on the constant series of three 7s. -/
theorem c5_constant_series_all_zero_witness :
    fit_transform (List.replicate 3 (7 : ℚ)) = some (List.replicate 3 0) :=
  c5_constant_series_all_zero 7 3 (by omega)

/-- C6 counterexample: windowing the length-3 series `[1, 2, 3]` with window
width 4 raises nothing — the loop range is empty and the windowing returns
the pair of empty lists, after which model fitting is still attempted. -/
theorem c6_counterexample : make_windows [1, 2, 3] 4 = ([], []) := by decide

/-- C6 (amended): for every series of length `N ≤ W` the windowing step
returns the pair of empty lists without raising any error; there is no
fail-fast guard before model fitting. -/
theorem c6_short_series_empty_windows (s : List ℚ) (w : Nat) (hs : s.length ≤ w) :
    make_windows s w = ([], []) := by
  have h0 : s.length - w = 0 := Nat.sub_eq_zero_of_le hs
  simp [make_windows, h0]

/-- Witness for the amended C6 on the series `[1, 2]` with `W = 5`. -/
theorem c6_short_series_empty_windows_witness : make_windows [1, 2] 5 = ([], []) :=
  c6_short_series_empty_windows [1, 2] 5 (by decide)

/-! ## Claims about assembly and evaluation -/

/-- C8: every normalized forecast value is denormalized through the inverse
transform of the one scaler captured at fit time (the same `sc` for every
element, never refit), and the forecast periods are exactly the `K` periods
strictly after the last observed one — the last observed value is never
duplicated into the forecast sequence. -/
theorem c8_assembly (sc : FittedScaler) (preds : List ℚ) (k : Nat) (lastYear : ℤ)
    (hk : preds.length = k) (h1 : 1 ≤ k) :
    (future_predictions_inv sc preds).length = k ∧
    (∀ i, i < k → (future_predictions_inv sc preds).getD i 0
        = sc.inverseTransform (preds.getD i 0)) ∧
    (future_dates_years lastYear k).length = k ∧
    (∀ d ∈ future_dates_years lastYear k, lastYear < d) ∧
    (future_dates_years lastYear k).getD 0 0 = lastYear + 1 := by
  refine ⟨by simp [future_predictions_inv, hk], fun i hi => ?_,
    by rw [future_dates_years, List.length_map, List.length_range],
    fun d hd => ?_, ?_⟩
  · have hi' : i < preds.length := by omega
    rw [future_predictions_inv, List.getD_eq_getElem?_getD, List.getElem?_map,
      List.getElem?_eq_getElem hi', List.getD_eq_getElem?_getD, List.getElem?_eq_getElem hi']
    rfl
  · simp only [future_dates_years, List.mem_map, List.mem_range] at hd
    obtain ⟨i, hi, rfl⟩ := hd
    omega
  · rw [future_dates_years, getD_map_range _ k 0 0 (by omega)]
    simp

/-- Witness for C8 with the scaler fitted on a series with minimum 0 and
maximum 2, normalized forecasts `[1/2, 1]`, horizon 2, last year 2023. -/
theorem c8_assembly_witness :
    (future_predictions_inv ⟨0, 2⟩ [1/2, 1]).length = 2 ∧
    (future_predictions_inv ⟨0, 2⟩ [1/2, 1]).getD 1 0
      = FittedScaler.inverseTransform ⟨0, 2⟩ (([1/2, 1] : List ℚ).getD 1 0) ∧
    (future_dates_years 2023 2).getD 0 0 = 2023 + 1 := by
  have h := c8_assembly ⟨0, 2⟩ [1/2, 1] 2 2023 (by decide) (by omega)
  exact ⟨h.1, h.2.1 1 (by omega), h.2.2.2.2⟩

/-- C9: the test metric is the mean of the squared differences between the
inverse-transformed predictions and the inverse-transformed labels, and when
the fitted minimum and maximum differ it equals `(max - min)^2` times the
normalized mean squared error — i.e. it is reported in original
incidence-rate units, not normalized units. -/
theorem c9_mse_denormalized (sc : FittedScaler) (preds labels : List ℚ)
    (hlen : preds.length = labels.length) (hne : sc.dataMin ≠ sc.dataMax) :
    test_loss sc preds labels
      = ((preds.zip labels).map fun q =>
          (sc.inverseTransform q.1 - sc.inverseTransform q.2) ^ 2).sum
        / (preds.length : ℚ) ∧
    test_loss sc preds labels
      = (sc.dataMax - sc.dataMin) ^ 2
        * (((preds.zip labels).map fun q => (q.1 - q.2) ^ 2).sum / (preds.length : ℚ)) := by
  have hd : sc.dataMax - sc.dataMin ≠ 0 := sub_ne_zero.mpr (Ne.symm hne)
  have hzip : ((preds.map sc.inverseTransform).zip (labels.map sc.inverseTransform)).map
        (fun q => (q.1 - q.2) ^ 2)
      = (preds.zip labels).map fun q =>
          (sc.inverseTransform q.1 - sc.inverseTransform q.2) ^ 2 := by
    rw [List.zip_map, List.map_map]
    rfl
  have hlen2 : (((preds.zip labels).map fun q =>
      (sc.inverseTransform q.1 - sc.inverseTransform q.2) ^ 2).length : ℚ)
      = (preds.length : ℚ) := by
    simp [hlen]
  have h1 : test_loss sc preds labels
      = ((preds.zip labels).map fun q =>
          (sc.inverseTransform q.1 - sc.inverseTransform q.2) ^ 2).sum
        / (preds.length : ℚ) := by
    rw [test_loss, meanList, hzip, hlen2]
  refine ⟨h1, ?_⟩
  have hpt : ∀ a b : ℚ, sc.inverseTransform a - sc.inverseTransform b
      = (sc.dataMax - sc.dataMin) * (a - b) := by
    intro a b
    simp only [FittedScaler.inverseTransform, FittedScaler.scaleFactor, FittedScaler.minAdjust,
      handleZerosInScale, if_neg hd]
    field_simp
    ring
  have h2 : ((preds.zip labels).map fun q =>
        (sc.inverseTransform q.1 - sc.inverseTransform q.2) ^ 2)
      = (preds.zip labels).map fun q => (sc.dataMax - sc.dataMin) ^ 2 * (q.1 - q.2) ^ 2 := by
    apply List.map_congr_left
    intro q _
    rw [hpt, mul_pow]
  rw [h1, h2, List.sum_map_mul_left, mul_div_assoc]

/-- Witness for C9 with scaler minimum 0 and maximum 2, one prediction 1 and
one label 0 (denormalized error `(2 - 0)^2 = 4`). -/
theorem c9_mse_denormalized_witness :
    test_loss ⟨0, 2⟩ [1] [0]
      = ((([1] : List ℚ).zip [0]).map fun q =>
          (FittedScaler.inverseTransform ⟨0, 2⟩ q.1
            - FittedScaler.inverseTransform ⟨0, 2⟩ q.2) ^ 2).sum
        / (([1] : List ℚ).length : ℚ) ∧
    test_loss ⟨0, 2⟩ [1] [0]
      = ((2 : ℚ) - 0) ^ 2
        * (((([1] : List ℚ).zip [0]).map fun q => (q.1 - q.2) ^ 2).sum
            / (([1] : List ℚ).length : ℚ)) :=
  c9_mse_denormalized ⟨0, 2⟩ [1] [0] (by decide) (by decide)

/-! ## Helper lemmas about the data-updater merge -/

